import Mathlib

/-!
# script.js — filter / sort / paginate pipeline and detail view

A shallow embedding of `src/script.js`.

* The module-level variables (`allPokemon`, `filtered`, `currentPage`) and the
  values of the four controls are the fields of `State`; a function that writes
  to them returns the new state, and `render` also returns what it draws.
* The string builtins of the host (`trim`, `toLowerCase`, `toUpperCase`,
  `Number`) are the fields of a `Host` record, so every theorem holds for the
  builtins of any host. `asciiHost` is a concrete one for evaluating examples.
* The numbers of the page arithmetic are the values of `JSNum`: NaN, the
  infinities and the integers. Entity ids are integers, as the data model
  states. The numbers an entity carries for display (height, weight, base
  experience) are the values of `JSDouble`, which has every finite number, and
  their text is the host's `String(x)`.
* `Array.prototype.slice` is modelled with its negative and out-of-range
  indices, `Array.prototype.sort` as the stable sort the language prescribes,
  and string comparison on UTF-16 code units.
* `renderPagination` is modelled for an integer page count and current page, as
  the list of controls it appends.
-/

namespace Pokedex

/-! ## JavaScript numbers -/

/-- The JavaScript numbers this program computes with: NaN, the two infinities
and the integers.  Numbers with a fractional part and negative zero are outside
this fragment. -/
inductive JSNum where
  | nan
  | posInf
  | negInf
  | int (i : Int)
  deriving DecidableEq, Repr

namespace JSNum

/-- JavaScript `a - b`. -/
def sub : JSNum → JSNum → JSNum
  | nan, _ => nan
  | _, nan => nan
  | posInf, posInf => nan
  | negInf, negInf => nan
  | posInf, _ => posInf
  | negInf, _ => negInf
  | int _, posInf => negInf
  | int _, negInf => posInf
  | int a, int b => int (a - b)

/-- JavaScript `a + b`. -/
def add : JSNum → JSNum → JSNum
  | nan, _ => nan
  | _, nan => nan
  | posInf, negInf => nan
  | negInf, posInf => nan
  | posInf, _ => posInf
  | negInf, _ => negInf
  | int _, posInf => posInf
  | int _, negInf => negInf
  | int a, int b => int (a + b)

/-- The sign of a non-NaN number: `-1`, `0` or `1`. -/
def sign : JSNum → Int
  | nan => 0
  | posInf => 1
  | negInf => -1
  | int i => Int.sign i

/-- JavaScript `a * b`: an infinity times zero is NaN. -/
def mul : JSNum → JSNum → JSNum
  | nan, _ => nan
  | _, nan => nan
  | int a, int b => int (a * b)
  | a, b =>
    if sign a * sign b = 0 then nan
    else if sign a * sign b > 0 then posInf else negInf

/-- JavaScript `a > b`: false as soon as one side is NaN. -/
def gt : JSNum → JSNum → Bool
  | nan, _ => false
  | _, nan => false
  | posInf, posInf => false
  | posInf, _ => true
  | negInf, _ => false
  | int _, posInf => false
  | int _, negInf => true
  | int a, int b => decide (a > b)

/-- JavaScript `Math.ceil(total / perPage)` for an array length `total`.  The quotient of
two integers is rounded up exactly; a zero divisor gives NaN (for `0 / 0`) or
`Infinity`; an infinite divisor gives zero. -/
def ceilDiv (total : Nat) : JSNum → JSNum
  | nan => nan
  | posInf => int 0
  | negInf => int 0
  | int p =>
    if p = 0 then (if total = 0 then nan else posInf)
    else int (-(Int.fdiv (-(total : Int)) p))

/-- JavaScript `Math.max(1, x)`. -/
def max1 : JSNum → JSNum
  | nan => nan
  | posInf => posInf
  | negInf => int 1
  | int i => int (max 1 i)

end JSNum

/-- A JavaScript number held in a field of a record: NaN, an infinity, or a
finite number, carried as the rational it denotes. Negative zero is carried as
0; the program cannot tell the two apart (both are falsy and print as `0`). -/
inductive JSDouble where
  | nan
  | posInf
  | negInf
  | fin (q : ℚ)
  deriving DecidableEq, Repr

/-- Truthiness of a number: NaN and zero are falsy. -/
def JSDouble.truthy : JSDouble → Bool
  | JSDouble.nan => false
  | JSDouble.fin q => q != 0
  | _ => true

/-! ## Host builtins -/

/-- The builtins of the host that the program calls. `toNumber` is `Number(s)`
on a string; `numberToString` is `String(x)` on a number, the text a template
literal gives it. -/
structure Host where
  trim : String → String
  toLowerCase : String → String
  toUpperCase : String → String
  toNumber : String → JSNum
  numberToString : JSDouble → String

/-- Reads a run of decimal digits as a natural number, if it is one. -/
def digitsValue : List Char → Nat → Option Nat
  | [], acc => some acc
  | c :: cs, acc =>
    if c.isDigit then digitsValue cs (10 * acc + (c.toNat - 48)) else none

/-- A host for ASCII text, used to evaluate the program on concrete inputs.
Its `toNumber` reads a string of decimal digits (the empty string is `0`) and
is NaN on every other string; its case maps act on ASCII letters; its `trim`
strips ASCII blanks. On strings of ASCII letters, digits and blanks these are
the values of the JavaScript builtins, provided that a string with a letter or a
blank in it is not a numeric literal (`abc`, `char`). Its `numberToString`
prints an integer in plain digits, which is its JavaScript text below `1e21`;
it prints any other finite number as a fraction, which is not its JavaScript
text. -/
def asciiHost : Host where
  trim := fun s => String.mk
    ((s.data.dropWhile Char.isWhitespace).reverse.dropWhile Char.isWhitespace).reverse
  toLowerCase := fun s => String.mk (s.data.map Char.toLower)
  toUpperCase := fun s => String.mk (s.data.map Char.toUpper)
  toNumber := fun s =>
    match digitsValue s.data 0 with
    | some n => JSNum.int n
    | none => JSNum.nan
  numberToString := fun x =>
    match x with
    | JSDouble.nan => "NaN"
    | JSDouble.posInf => "Infinity"
    | JSDouble.negInf => "-Infinity"
    | JSDouble.fin q =>
      if q.den = 1 then toString q.num else toString q.num ++ "/" ++ toString q.den

/-! ## Data model -/

/-- One record of the dataset. An absent (or null) optional field is `none`. -/
structure Pokemon where
  id : Int
  name : String
  types : Option (List String) := none
  gen : Option String := none
  species : Option String := none
  description : Option String := none
  sprite_url : Option String := none
  height : Option JSDouble := none
  weight : Option JSDouble := none
  abilities : Option (List String) := none
  base_experience : Option JSDouble := none
  deriving DecidableEq, Repr

/-- The module-level variables and the values of the controls. -/
structure State where
  search : String
  typeFilter : String
  sortSelect : String
  perPage : String
  allPokemon : List Pokemon
  filtered : List Pokemon
  currentPage : JSNum
  deriving DecidableEq, Repr

/-! ## Arrays and strings -/

/-- JavaScript `ToIntegerOrInfinity` followed by the clamping of a relative index that
`Array.prototype.slice` does on an array of length `len`. -/
def relIndex (len : Nat) : JSNum → Nat
  | JSNum.nan => 0
  | JSNum.posInf => len
  | JSNum.negInf => 0
  | JSNum.int i => if i < 0 then (len + i).toNat else min i.toNat len

/-- JavaScript `xs.slice(s, e)`. -/
def slice {α : Type} (xs : List α) (s e : JSNum) : List α :=
  let k := relIndex xs.length s
  let final := relIndex xs.length e
  (xs.drop k).take (final - k)

/-- The UTF-16 code units of a string. -/
def codeUnits (s : String) : List Nat :=
  s.data.flatMap fun c =>
    if c.toNat < 65536 then [c.toNat]
    else [55296 + (c.toNat - 65536) / 1024, 56320 + (c.toNat - 65536) % 1024]

/-- JavaScript `s.includes(q)` on strings. Both strings are well-formed
(without lone surrogates), for which a run of code units of `s` spells `q`
exactly when a run of characters of `s` does. -/
def includes (s q : String) : Bool :=
  decide (q.data <:+: s.data)

/-- JavaScript `sortVal.split('-')`, as the list of pieces. -/
def splitDash : List Char → List Char → List String
  | [], cur => [String.mk cur.reverse]
  | c :: cs, cur =>
    if c = '-' then String.mk cur.reverse :: splitDash cs []
    else splitDash cs (c :: cur)

/-- JavaScript `Array.prototype.sort(cmp)`: a stable sort that places `a` before `b`
unless `cmp(a, b) > 0`. -/
def sort {α : Type} (cmp : α → α → Int) (xs : List α) : List α :=
  xs.insertionSort (fun a b => cmp a b ≤ 0)

/-! ## The program -/

/-- What `render` draws: the entities of the visible slice (one card each; the
empty-state indicator when there is none), the page count handed to
`renderPagination`, and the result-count label. -/
structure View where
  pageItems : List Pokemon
  pages : JSNum
  count : String
  deriving DecidableEq, Repr

/-- Function `capitalize(s)`: the first code unit upper-cased, the rest unchanged. A
first character outside the basic plane starts with a lone surrogate, which
upper-casing leaves as it is. -/
def capitalize (host : Host) (s : String) : String :=
  match s.data with
  | [] => ""
  | c :: cs =>
    if c.toNat < 65536 then host.toUpperCase (String.singleton c) ++ String.mk cs
    else s

/-- Function `fallbackSpriteFor(id)`. -/
def fallbackSpriteFor (host : Host) (id : Int) : String :=
  "https://raw.githubusercontent.com/PokeAPI/sprites/master/sprites/pokemon/other/official-artwork/"
    ++ host.numberToString (JSDouble.fin id) ++ ".png"

/-- The callback of `allPokemon.filter` in `applyFilters`, for the normalised
search text `q` and the selected type `selType`. -/
def passesFilter (host : Host) (q selType : String) (p : Pokemon) : Bool :=
  let rejected :=
    if q ≠ "" then
      let qnum := host.toNumber q
      let matchId := qnum ≠ JSNum.nan && JSNum.int p.id == qnum
      let matchName := includes (host.toLowerCase p.name) q
      !(matchId || matchName)
    else false
  if rejected then false
  else if selType ≠ "" then (p.types.getD []).contains selType
  else true

/-- The filter step of `applyFilters`. -/
def filterStep (host : Host) (q selType : String) (allPokemon : List Pokemon) : List Pokemon :=
  allPokemon.filter (passesFilter host q selType)

/-- The comparator of `filtered.sort` in `applyFilters`. -/
def compareBy (host : Host) (field dir : Option String) (a b : Pokemon) : Int :=
  if field = some "id" then (if dir = some "asc" then a.id - b.id else b.id - a.id)
  else
    let an := codeUnits (host.toLowerCase a.name)
    let bn := codeUnits (host.toLowerCase b.name)
    if an = bn then 0
    else if dir = some "asc" then (if an > bn then 1 else -1)
    else (if an < bn then 1 else -1)

/-- The sort step of `applyFilters` for the value of the sort control. -/
def sortStep (host : Host) (sortVal : String) (xs : List Pokemon) : List Pokemon :=
  let parts := splitDash sortVal.data []
  sort (compareBy host parts[0]? parts[1]?) xs

/-- The page size `Number(el.perPage.value || 12)`. -/
def perPageOf (host : Host) (value : String) : JSNum :=
  if value ≠ "" then host.toNumber value else JSNum.int 12

/-- Function `render()`: the state after the call and what was drawn. -/
def render (host : Host) (st : State) : State × View :=
  let perPage := perPageOf host st.perPage
  let total := st.filtered.length
  let pages := JSNum.max1 (JSNum.ceilDiv total perPage)
  let currentPage := if JSNum.gt st.currentPage pages then pages else st.currentPage
  let start := JSNum.mul (JSNum.sub currentPage (JSNum.int 1)) perPage
  let pageItems := slice st.filtered start (JSNum.add start perPage)
  ({ st with currentPage := currentPage },
   { pageItems := pageItems, pages := pages,
     count := toString total ++ " result" ++ (if total ≠ 1 then "s" else "") })

/-- Function `applyFilters()`. -/
def applyFilters (host : Host) (st : State) : State × View :=
  let q := host.toLowerCase (host.trim st.search)
  let selType := st.typeFilter
  let sortVal := st.sortSelect
  let filtered := sortStep host sortVal (filterStep host q selType st.allPokemon)
  render host { st with filtered := filtered, currentPage := JSNum.int 1 }

/-- Function `resetFilters()`. -/
def resetFilters (host : Host) (st : State) : State × View :=
  applyFilters host
    { st with search := "", typeFilter := "", sortSelect := "id-asc", perPage := "12",
              currentPage := JSNum.int 1 }

/-- The elements `renderPagination` appends to the pagination bar. -/
inductive Control where
  | prev (disabled : Bool)
  | next (disabled : Bool)
  | button (label : String) (page : Int) (ariaCurrent : Bool)
  | dots
  deriving DecidableEq, Repr

/-- The page number of a page button. -/
def Control.page? : Control → Option Int
  | Control.button _ page _ => some page
  | _ => none

/-- The page-number window `[start, end]` of `renderPagination`. -/
def pageWindow (pages currentPage : Int) : Int × Int :=
  let windowSize : Int := 7
  let start := max 1 (currentPage - windowSize / 2)
  let stop := min pages (start + windowSize - 1)
  let start := if stop - start < windowSize - 1 then max 1 (stop - windowSize + 1) else start
  (start, stop)

/-- The loop `for (let i = start; i <= end; i++)` of `renderPagination`. -/
def windowButtons (start stop currentPage : Int) : List Control :=
  (List.range (stop - start + 1).toNat).map fun (k : Nat) =>
    Control.button (toString (start + k)) (start + k) (decide (start + (k : Int) = currentPage))

/-- Function `renderPagination(pages)` for an integer page count and current page. -/
def renderPagination (pages currentPage : Int) : List Control :=
  if pages ≤ 1 then []
  else
    let (start, stop) := pageWindow pages currentPage
    [Control.prev (decide (currentPage = 1))]
    ++ (if start > 1 then
          [Control.button "1" 1 (decide (currentPage = 1))]
          ++ (if start > 2 then [Control.dots] else [])
        else [])
    ++ windowButtons start stop currentPage
    ++ (if stop < pages then
          (if stop < pages - 1 then [Control.dots] else [])
          ++ [Control.button (toString pages) pages (decide (currentPage = pages))]
        else [])
    ++ [Control.next (decide (currentPage = pages))]

/-- Whether a control is a page button marked `aria-current`. -/
def Control.ariaCurrent : Control → Bool
  | Control.button _ _ ariaCurrent => ariaCurrent
  | _ => false

/-- The button of page `page`: labelled with the number and marked
`aria-current` exactly when `page` is the current page. -/
def pageButton (currentPage page : Int) : Control :=
  Control.button (toString page) page (decide (page = currentPage))

/-- Stated from the specification: the buttons of the page numbers `ps` in
order, with an ellipsis spacer between two neighbouring buttons exactly when
their page numbers differ by more than 1. -/
def spaced (currentPage : Int) : List Int → List Control
  | [] => []
  | [a] => [pageButton currentPage a]
  | a :: b :: rest =>
    pageButton currentPage a
      :: ((if b - a > 1 then [Control.dots] else []) ++ spaced currentPage (b :: rest))

/-- The content `openModal` writes into the detail panel. -/
structure Modal where
  imgSrc : String
  imgAlt : String
  title : String
  muted : String
  badges : List String
  description : String
  specs : List (String × String)
  deriving DecidableEq, Repr

/-- JavaScript `x || fallback` for an optional string: absent and empty are falsy. -/
def strOr (x : Option String) (fallback : String) : String :=
  match x with
  | some s => if s ≠ "" then s else fallback
  | none => fallback

/-- The text of `x || '-'` for an optional number: absent, zero and NaN are
falsy. -/
def numOrDash (host : Host) (x : Option JSDouble) : String :=
  match x with
  | some v => if v.truthy then host.numberToString v else "-"
  | none => "-"

/-- The text of `x ?? '-'` for an optional number. -/
def numCoalesceDash (host : Host) (x : Option JSDouble) : String :=
  match x with
  | some v => host.numberToString v
  | none => "-"

/-- The abilities cell: `(p.abilities || []).map(capitalize).join(', ') || '-'`. -/
def abilitiesText (host : Host) (abilities : Option (List String)) : String :=
  let joined := String.intercalate ", " ((abilities.getD []).map (capitalize host))
  if joined ≠ "" then joined else "-"

/-- Function `openModal(p)`. -/
def openModal (host : Host) (p : Pokemon) : Modal where
  imgSrc := strOr p.sprite_url (fallbackSpriteFor host p.id)
  imgAlt := p.name ++ " official art"
  title := "#" ++ host.numberToString (JSDouble.fin p.id) ++ " " ++ capitalize host p.name
  muted := strOr p.gen (strOr p.species "")
  badges := (p.types.getD []).map (capitalize host)
  description := strOr p.description ""
  specs :=
    [ ("Height", numOrDash host p.height ++ " m"),
      ("Weight", numOrDash host p.weight ++ " kg"),
      ("Abilities", abilitiesText host p.abilities),
      ("Base experience", numCoalesceDash host p.base_experience) ]


/-! ## Sample data -/

/-- The first entity of the scenario dataset. -/
def bulbasaur : Pokemon :=
  { id := 1, name := "Bulbasaur", types := some ["grass", "poison"] }

/-- The second entity of the scenario dataset. -/
def charmander : Pokemon :=
  { id := 4, name := "Charmander", types := some ["fire"] }

/-- A dataset of `n` entities with ids `1, ..., n`. -/
def numbered (n : Nat) : List Pokemon :=
  (List.range n).map fun (k : Nat) => { id := (k : Int) + 1, name := "mon" }

/-- A state over `allPokemon` with nothing filtered out and default controls. -/
def initial (allPokemon : List Pokemon) : State :=
  { search := "", typeFilter := "", sortSelect := "id-asc", perPage := "12",
    allPokemon := allPokemon, filtered := allPokemon, currentPage := JSNum.int 1 }

/-! ## Pagination arithmetic -/

theorem slice_int {α : Type} (xs : List α) (a b : Nat) :
    slice xs (JSNum.int a) (JSNum.int ((a : Int) + b)) = (xs.drop a).take b := by
  have h1 : relIndex xs.length (JSNum.int a) = min a xs.length := by
    simp [relIndex]
  have h2 : relIndex xs.length (JSNum.int ((a : Int) + b)) = min (a + b) xs.length := by
    have : ¬ ((a : Int) + b < 0) := by omega
    simp only [relIndex, this, if_false]
    congr 1
  simp only [slice, h1, h2]
  rcases Nat.le_total a xs.length with h | h
  · rw [Nat.min_eq_left h, List.take_eq_take]
    simp only [List.length_drop]
    omega
  · rw [Nat.min_eq_right h, List.drop_eq_nil_of_le (Nat.le_refl _), List.drop_eq_nil_of_le h]
    simp

theorem natCeil_div (n p : Nat) (hp : 0 < p) : ⌈(n : ℚ) / p⌉₊ = (n + p - 1) / p := by
  have hp' : (0 : ℚ) < p := by exact_mod_cast hp
  apply le_antisymm
  · rw [Nat.ceil_le, div_le_iff₀ hp']
    have : n ≤ (n + p - 1) / p * p := by
      have := @Nat.lt_div_mul_add (n + p - 1) p hp
      omega
    exact_mod_cast this
  · rcases Nat.eq_zero_or_pos ((n + p - 1) / p) with h | h
    · omega
    · have : (n + p - 1) / p - 1 < ⌈(n : ℚ) / p⌉₊ := by
        rw [Nat.lt_ceil, lt_div_iff₀ hp']
        have h1 := Nat.div_mul_le_self (n + p - 1) p
        have h2 : ((n + p - 1) / p - 1) * p < n := by
          have : ((n + p - 1) / p - 1) * p + p = (n + p - 1) / p * p := by
            conv_rhs => rw [show (n + p - 1) / p = ((n + p - 1) / p - 1) + 1 by omega]
            ring
          omega
        exact_mod_cast h2
      omega

theorem ceilDiv_int (n p : Nat) (hp : 0 < p) :
    JSNum.ceilDiv n (JSNum.int p) = JSNum.int ((⌈(n : ℚ) / p⌉₊ : Nat) : Int) := by
  have hp0 : (p : Int) ≠ 0 := by omega
  simp only [JSNum.ceilDiv, hp0, if_false]
  congr 1
  rw [Int.fdiv_eq_ediv _ (by omega), natCeil_div n p hp]
  have h1 := Nat.div_mul_le_self (n + p - 1) p
  have h2 := @Nat.lt_div_mul_add (n + p - 1) p hp
  have key : (-(n : Int)) / (p : Int) = -(((n + p - 1) / p : Nat) : Int)
      ∧ (-(n : Int)) % (p : Int) = (((n + p - 1) / p * p - n : Nat) : Int) := by
    rw [Int.ediv_emod_unique (by omega)]
    refine ⟨?_, by omega, by omega⟩
    have : n ≤ (n + p - 1) / p * p := by omega
    push_cast [Nat.cast_sub this]
    ring
  rw [key.1]; simp


theorem render_of_int (host : Host) (st : State) (p : Nat) (c : Int) (hp : 0 < p) (hc : 1 ≤ c)
    (hpp : perPageOf host st.perPage = JSNum.int p) (hcur : st.currentPage = JSNum.int c) :
    (render host st).1.currentPage
        = JSNum.int (min c ((max 1 ⌈(st.filtered.length : ℚ) / p⌉₊ : Nat) : Int)) ∧
    (render host st).2.pages = JSNum.int ((max 1 ⌈(st.filtered.length : ℚ) / p⌉₊ : Nat) : Int) ∧
    (render host st).2.pageItems
        = (st.filtered.drop
            ((min c ((max 1 ⌈(st.filtered.length : ℚ) / p⌉₊ : Nat) : Int) - 1).toNat * p)).take p := by
  generalize hP : (max 1 ⌈(st.filtered.length : ℚ) / p⌉₊ : Nat) = P
  have hpages : JSNum.max1 (JSNum.ceilDiv st.filtered.length (JSNum.int p)) = JSNum.int (P : Int) := by
    rw [ceilDiv_int _ _ hp, JSNum.max1, ← hP]
    congr 1
    push_cast
    rfl
  have hP1 : 1 ≤ P := by rw [← hP]; exact Nat.le_max_left _ _
  have hclamp : (if JSNum.gt (JSNum.int c) (JSNum.int (P : Int)) then JSNum.int (P : Int)
      else JSNum.int c) = JSNum.int (min c (P : Int)) := by
    simp only [JSNum.gt]
    by_cases h : c > (P : Int)
    · simp [h, Int.min_eq_right (Int.le_of_lt h)]
    · simp [h, Int.min_eq_left (Int.not_lt.mp h)]
  have hm1 : 1 ≤ min c (P : Int) := by omega
  obtain ⟨m, hm⟩ : ∃ m : Nat, min c (P : Int) - 1 = (m : Int) := ⟨_, (Int.toNat_of_nonneg (by omega)).symm⟩
  refine ⟨?_, ?_, ?_⟩
  · simp only [render, hpp, hcur, hpages, hclamp]
  · simp only [render, hpp, hcur, hpages]
  · simp only [render, hpp, hcur, hpages, hclamp, JSNum.sub, JSNum.mul, JSNum.add, hm]
    have := slice_int st.filtered (m * p) p
    push_cast at this
    rw [this]
    simp


theorem flatMap_pages {α : Type} (xs : List α) (p k : Nat) :
    (List.range k).flatMap (fun i => (xs.drop (i * p)).take p) = xs.take (k * p) := by
  induction k with
  | zero => simp
  | succ k ih =>
    rw [List.range_succ, List.flatMap_append, ih]
    simp only [List.flatMap_cons, List.flatMap_nil, List.append_nil]
    rw [Nat.succ_mul, List.take_add]

/-- C1: for a page size `p ≥ 1`, the visible slices that `render` computes for
`currentPage = 1, ..., pageCount`, with `pageCount = max(1, ceil(n / p))`,
concatenate to the filtered sequence; `render` leaves each such `currentPage`
as it is and reports `pageCount` pages; every page but the last holds exactly
`p` entities and the last one holds the remaining `n - (pageCount - 1) * p`. -/
theorem render_pages_partition (host : Host) (st : State) (p : Nat) (hp : 1 ≤ p)
    (hpp : perPageOf host st.perPage = JSNum.int p) :
    (List.range (max 1 ⌈(st.filtered.length : ℚ) / p⌉₊)).flatMap
        (fun i => (render host { st with currentPage := JSNum.int ((i : Int) + 1) }).2.pageItems)
      = st.filtered ∧
    (∀ i : Nat, i < max 1 ⌈(st.filtered.length : ℚ) / p⌉₊ →
      (render host { st with currentPage := JSNum.int ((i : Int) + 1) }).1.currentPage
          = JSNum.int ((i : Int) + 1) ∧
      (render host { st with currentPage := JSNum.int ((i : Int) + 1) }).2.pages
          = JSNum.int ((max 1 ⌈(st.filtered.length : ℚ) / p⌉₊ : Nat) : Int) ∧
      (render host { st with currentPage := JSNum.int ((i : Int) + 1) }).2.pageItems
          = (st.filtered.drop (i * p)).take p) ∧
    (∀ i : Nat, i + 1 < max 1 ⌈(st.filtered.length : ℚ) / p⌉₊ →
      (render host { st with currentPage := JSNum.int ((i : Int) + 1) }).2.pageItems.length = p) ∧
    (render host { st with
        currentPage := JSNum.int ((max 1 ⌈(st.filtered.length : ℚ) / p⌉₊ : Nat) : Int)
      }).2.pageItems.length
      = st.filtered.length - (max 1 ⌈(st.filtered.length : ℚ) / p⌉₊ - 1) * p := by
  have hceil := natCeil_div st.filtered.length p hp
  have h1 := Nat.div_mul_le_self (st.filtered.length + p - 1) p
  have h2 := @Nat.lt_div_mul_add (st.filtered.length + p - 1) p hp
  generalize hP : (max 1 ⌈(st.filtered.length : ℚ) / p⌉₊ : Nat) = P
  have hP1 : 1 ≤ P := by rw [← hP]; exact Nat.le_max_left _ _
  have hPn : st.filtered.length ≤ P * p := by
    have : (st.filtered.length + p - 1) / p ≤ P := by rw [← hP, hceil]; exact Nat.le_max_right _ _
    have := Nat.mul_le_mul_right p this
    omega
  have hPlow : (P - 1) * p ≤ st.filtered.length := by
    rcases Nat.lt_or_ge ((st.filtered.length + p - 1) / p) 1 with h | h
    · have : P = 1 := by rw [← hP, hceil]; omega
      simp [this]
    · have hPe : P = (st.filtered.length + p - 1) / p := by rw [← hP, hceil]; omega
      have : (P - 1) * p + p = P * p := by
        conv_rhs => rw [show P = (P - 1) + 1 by omega]
        ring
      rw [← hPe] at h1 h2
      omega
  have page : ∀ i : Nat, i < P →
      (render host { st with currentPage := JSNum.int ((i : Int) + 1) }).1.currentPage
          = JSNum.int ((i : Int) + 1) ∧
      (render host { st with currentPage := JSNum.int ((i : Int) + 1) }).2.pages
          = JSNum.int (P : Int) ∧
      (render host { st with currentPage := JSNum.int ((i : Int) + 1) }).2.pageItems
          = (st.filtered.drop (i * p)).take p := by
    intro i hi
    have := render_of_int host { st with currentPage := JSNum.int ((i : Int) + 1) } p ((i : Int) + 1)
      hp (by omega) hpp rfl
    simp only [hP] at this
    have hmin : min ((i : Int) + 1) (P : Int) = (i : Int) + 1 := by omega
    rw [hmin] at this
    simpa using this
  refine ⟨?_, page, ?_, ?_⟩
  · have : (List.range P).flatMap
        (fun i => (render host { st with currentPage := JSNum.int ((i : Int) + 1) }).2.pageItems)
        = (List.range P).flatMap (fun i => (st.filtered.drop (i * p)).take p) := by
      apply List.flatMap_congr
      intro i hi
      exact (page i (List.mem_range.mp hi)).2.2
    rw [this, flatMap_pages, List.take_of_length_le hPn]
  · intro i hi
    rw [(page i (by omega)).2.2, List.length_take, List.length_drop]
    have : (i + 1) * p ≤ (P - 1) * p := Nat.mul_le_mul_right p (by omega)
    have : (i + 1) * p = i * p + p := by ring
    omega
  · have := (page (P - 1) (by omega)).2.2
    have hc : (((P - 1 : Nat) : Int) + 1) = (P : Int) := by omega
    rw [hc] at this
    rw [this, List.length_take, List.length_drop]
    have : (P - 1) * p + p = P * p := by
      conv_rhs => rw [show P = (P - 1) + 1 by omega]
      ring
    omega


theorem render_pages_partition_witness :
    (1 ≤ 12 ∧ perPageOf asciiHost (initial (numbered 25)).perPage = JSNum.int (12 : Nat)) ∧
    (render asciiHost { initial (numbered 25) with currentPage := JSNum.int 3 }).2.pages
      = JSNum.int 3 ∧
    (render asciiHost { initial (numbered 25) with currentPage := JSNum.int 3 }).2.pageItems.length
      = 1 := by
  have h := render_pages_partition asciiHost (initial (numbered 25)) 12 (by decide) (by decide)
  have hlen : (initial (numbered 25)).filtered.length = 25 := by decide
  have hc : max 1 ⌈(((initial (numbered 25)).filtered.length : Nat) : ℚ) / ((12 : Nat) : ℚ)⌉₊ = 3 := by
    rw [hlen, natCeil_div 25 12 (by decide)]
    decide
  rw [hc] at h
  refine ⟨⟨by decide, by decide⟩, ?_, ?_⟩
  · exact (h.2.1 2 (by decide)).2.1
  · have := h.2.2.2
    simpa [hlen] using this


theorem render_clamp (host : Host) (st : State) (p : Nat) (c : Int) (hp : 0 < p)
    (hpp : perPageOf host st.perPage = JSNum.int p) (hcur : st.currentPage = JSNum.int c) :
    (render host st).1.currentPage
        = JSNum.int (min c ((max 1 ⌈(st.filtered.length : ℚ) / p⌉₊ : Nat) : Int)) := by
  generalize hP : (max 1 ⌈(st.filtered.length : ℚ) / p⌉₊ : Nat) = P
  have hpages : JSNum.max1 (JSNum.ceilDiv st.filtered.length (JSNum.int p)) = JSNum.int (P : Int) := by
    rw [ceilDiv_int _ _ hp, JSNum.max1, ← hP]
    congr 1
    push_cast
    rfl
  simp only [render, hpp, hcur, hpages, JSNum.gt]
  by_cases h : c > (P : Int)
  · simp [h, Int.min_eq_right (Int.le_of_lt h)]
  · simp [h, Int.min_eq_left (Int.not_lt.mp h)]

/-- C2 (counterexample): with 25 filtered entities, page size 12 and
`currentPage = 0` before the call, `render` leaves `currentPage` at 0, outside
`[1, 3]`, and draws no entity. -/
theorem render_page_zero_not_clamped :
    perPageOf asciiHost (initial (numbered 25)).perPage = JSNum.int 12 ∧
    (render asciiHost { initial (numbered 25) with currentPage := JSNum.int 0 }).2.pages
      = JSNum.int 3 ∧
    (render asciiHost { initial (numbered 25) with currentPage := JSNum.int 0 }).1.currentPage
      = JSNum.int 0 ∧
    (render asciiHost { initial (numbered 25) with currentPage := JSNum.int 0 }).2.pageItems = [] ∧
    ¬ ((1 : Int) ≤ 0) := by
  decide

/-- C2 (amended): for a page size `p ≥ 1` and an integer `currentPage = c`
before the call, `render` leaves `currentPage = min(c, pageCount)` with
`pageCount = max(1, ceil(filteredCount / p))`: a value above `pageCount` is
clamped down, a value below 1 is not raised. When `c ≥ 1` the result lies in
`[1, pageCount]` and the slice drawn is the slice of that clamped page. -/
theorem render_clamps_above (host : Host) (st : State) (p : Nat) (c : Int) (hp : 1 ≤ p)
    (hpp : perPageOf host st.perPage = JSNum.int p) (hcur : st.currentPage = JSNum.int c) :
    (render host st).1.currentPage
        = JSNum.int (min c ((max 1 ⌈(st.filtered.length : ℚ) / p⌉₊ : Nat) : Int)) ∧
    (render host st).2.pages = JSNum.int ((max 1 ⌈(st.filtered.length : ℚ) / p⌉₊ : Nat) : Int) ∧
    (1 ≤ c →
      1 ≤ min c ((max 1 ⌈(st.filtered.length : ℚ) / p⌉₊ : Nat) : Int) ∧
      min c ((max 1 ⌈(st.filtered.length : ℚ) / p⌉₊ : Nat) : Int)
        ≤ ((max 1 ⌈(st.filtered.length : ℚ) / p⌉₊ : Nat) : Int) ∧
      (render host st).2.pageItems
        = (st.filtered.drop
            ((min c ((max 1 ⌈(st.filtered.length : ℚ) / p⌉₊ : Nat) : Int) - 1).toNat * p)).take p) := by
  refine ⟨render_clamp host st p c hp hpp hcur, ?_, ?_⟩
  · have hpages : JSNum.max1 (JSNum.ceilDiv st.filtered.length (JSNum.int p))
        = JSNum.int ((max 1 ⌈(st.filtered.length : ℚ) / p⌉₊ : Nat) : Int) := by
      rw [ceilDiv_int _ _ hp, JSNum.max1]
      congr 1
      push_cast
      rfl
    simp only [render, hpp, hpages]
  · intro hc
    have hP1 : 1 ≤ (max 1 ⌈(st.filtered.length : ℚ) / p⌉₊ : Nat) := Nat.le_max_left _ _
    refine ⟨by omega, by omega, (render_of_int host st p c hp hc hpp hcur).2.2⟩

theorem render_clamps_above_witness :
    (1 ≤ 12 ∧ perPageOf asciiHost (initial (numbered 25)).perPage = JSNum.int (12 : Nat) ∧
      ({ initial (numbered 25) with currentPage := JSNum.int 9 } : State).currentPage = JSNum.int 9 ∧
      (1 : Int) ≤ 9) ∧
    (render asciiHost { initial (numbered 25) with currentPage := JSNum.int 9 }).1.currentPage
      = JSNum.int 3 ∧
    (render asciiHost { initial (numbered 25) with currentPage := JSNum.int 9 }).2.pageItems
      = ((initial (numbered 25)).filtered.drop 24).take 12 := by
  have h := render_clamps_above asciiHost { initial (numbered 25) with currentPage := JSNum.int 9 }
    12 9 (by decide) (by decide) rfl
  have hlen : (initial (numbered 25)).filtered.length = 25 := by decide
  have hc : max 1 ⌈(((initial (numbered 25)).filtered.length : Nat) : ℚ) / ((12 : Nat) : ℚ)⌉₊ = 3 := by
    rw [hlen, natCeil_div 25 12 (by decide)]
    decide
  simp only [hc] at h
  exact ⟨⟨by decide, by decide, rfl, by decide⟩, h.1, (h.2.2 (by decide)).2.2⟩

/-! ## Filtering -/

theorem passesFilter_iff (host : Host) (q t : String) (p : Pokemon) :
    passesFilter host q t p = true ↔
      (q = "" ∨ host.toNumber q = JSNum.int p.id ∨ q.data <:+: (host.toLowerCase p.name).data) ∧
      (t = "" ∨ ∃ ts, p.types = some ts ∧ t ∈ ts) := by
  have htypes : (p.types.getD []).contains t = true ↔ ∃ ts, p.types = some ts ∧ t ∈ ts := by
    cases p.types <;> simp
  have hid : (host.toNumber q ≠ JSNum.nan ∧ JSNum.int p.id = host.toNumber q)
      ↔ host.toNumber q = JSNum.int p.id := by
    constructor
    · intro h; exact h.2.symm
    · intro h; rw [h]; simp
  unfold passesFilter includes
  by_cases hq : q = "" <;> by_cases ht : t = ""
  · simp [hq, ht]
  · have hmem : t ∈ p.types.getD [] ↔ ∃ ts, p.types = some ts ∧ t ∈ ts := by
      cases p.types <;> simp
    simp [hq, ht, hmem]
  · simp only [hq, ht, ne_eq, not_false_eq_true, if_true, not_true_eq_false, if_false,
      false_or, true_or, and_true]
    simp only [Bool.not_eq_true', Bool.or_eq_false_iff, Bool.and_eq_false_imp,
      if_true_right, Bool.decide_eq_true, beq_iff_eq, decide_eq_false_iff_not,
      decide_eq_true_eq, bne_iff_ne, ne_eq, Bool.and_eq_true, decide_not, Bool.not_eq_true,
      Bool.or_eq_true, Bool.not_eq_eq_eq_not, Bool.not_true, Bool.not_false]
    rw [← hid]
    by_cases h1 : host.toNumber q = JSNum.nan <;> by_cases h2 : JSNum.int p.id = host.toNumber q <;>
      by_cases h3 : q.data <:+: (host.toLowerCase p.name).data <;> simp [h1, h2, h3]
  · simp only [hq, ht, ne_eq, not_false_eq_true, if_true, false_or]
    rw [← htypes, ← hid]
    by_cases h1 : host.toNumber q = JSNum.nan <;> by_cases h2 : JSNum.int p.id = host.toNumber q <;>
      by_cases h3 : q.data <:+: (host.toLowerCase p.name).data <;> simp [h1, h2, h3]


theorem passesFilter_split (host : Host) (q t : String) (p : Pokemon) :
    passesFilter host q t p = (passesFilter host q "" p && passesFilter host "" t p) := by
  rw [Bool.eq_iff_iff, Bool.and_eq_true, passesFilter_iff, passesFilter_iff, passesFilter_iff]
  simp

/-- C3: the filter step of `applyFilters` works on the search text trimmed and
lower-cased, and keeps exactly the entities for which (1) that text is empty,
or its number is the entity's id, or it is a substring of the lower-cased name,
and (2) no type is selected or the entity's `types` holds the selected tag.
The kept entities are a subsequence of the dataset, and with empty search text
and no type every entity is kept. -/
theorem applyFilters_filter_exact (host : Host) (st : State) :
    (applyFilters host st).1.filtered
      = sortStep host st.sortSelect
          (filterStep host (host.toLowerCase (host.trim st.search)) st.typeFilter st.allPokemon) ∧
    (∀ q t : String, ∀ D : List Pokemon,
      filterStep host q t D
        = D.filter (fun p => decide
            ((q = "" ∨ host.toNumber q = JSNum.int p.id
                ∨ q.data <:+: (host.toLowerCase p.name).data) ∧
             (t = "" ∨ ∃ ts, p.types = some ts ∧ t ∈ ts))) ∧
      (filterStep host q t D).Sublist D) ∧
    (∀ D : List Pokemon, filterStep host "" "" D = D) := by
  refine ⟨rfl, ?_, ?_⟩
  · intro q t D
    refine ⟨?_, List.filter_sublist D⟩
    unfold filterStep
    apply List.filter_congr
    intro p _
    rw [Bool.eq_iff_iff, passesFilter_iff]
    simp
  · intro D
    unfold filterStep
    rw [List.filter_eq_self]
    intro p _
    rw [passesFilter_iff]
    simp

/-- The scenarios of the filter step on the two-entity dataset: `char` keeps
Charmander by name, the type `poison` keeps Bulbasaur, and `1` keeps Bulbasaur
by id although no name contains it. -/
theorem filterStep_scenarios :
    filterStep asciiHost (asciiHost.toLowerCase (asciiHost.trim "char")) "" [bulbasaur, charmander]
      = [charmander] ∧
    filterStep asciiHost "" "poison" [bulbasaur, charmander] = [bulbasaur] ∧
    filterStep asciiHost (asciiHost.toLowerCase (asciiHost.trim " 1 ")) "" [bulbasaur, charmander]
      = [bulbasaur] ∧
    includes (asciiHost.toLowerCase bulbasaur.name) "1" = false := by
  decide

/-- C4: filtering by the search text alone and then by the type alone gives
the same sequence as filtering by the type alone and then by the search text
alone, and both equal the filter step with the two applied together. -/
theorem filterStep_commute (host : Host) (q t : String) (D : List Pokemon) :
    filterStep host "" t (filterStep host q "" D) = filterStep host q "" (filterStep host "" t D) ∧
    filterStep host "" t (filterStep host q "" D) = filterStep host q t D := by
  have h1 : filterStep host "" t (filterStep host q "" D) = filterStep host q t D := by
    unfold filterStep
    rw [List.filter_filter]
    apply List.filter_congr
    intro p _
    rw [passesFilter_split host q t p, Bool.and_comm]
  have h2 : filterStep host q "" (filterStep host "" t D) = filterStep host q t D := by
    unfold filterStep
    rw [List.filter_filter]
    apply List.filter_congr
    intro p _
    rw [passesFilter_split host q t p]
  exact ⟨h1.trans h2.symm, h1⟩


/-! ## Sorting -/

theorem filter_orderedInsert {α : Type} (r : α → α → Prop) [DecidableRel r] (P : α → Bool)
    (a : α) (l : List α) (h : ∀ b, P a = true → P b = true → r a b) :
    (l.orderedInsert r a).filter P = (a :: l).filter P := by
  induction l with
  | nil => simp
  | cons b l ih =>
    by_cases hab : r a b
    · simp [List.orderedInsert, hab]
    · have hnot : ¬ (P a = true ∧ P b = true) := fun hh => hab (h b hh.1 hh.2)
      simp only [List.orderedInsert, hab, if_false, List.filter_cons, ih]
      by_cases ha : P a = true <;> by_cases hb : P b = true <;> simp_all

theorem filter_sort {α : Type} (cmp : α → α → Int) (P : α → Bool)
    (h : ∀ a b, P a = true → P b = true → cmp a b ≤ 0) (xs : List α) :
    (sort cmp xs).filter P = xs.filter P := by
  unfold sort
  induction xs with
  | nil => simp
  | cons a l ih =>
    rw [List.insertionSort, filter_orderedInsert _ P a _ (h a), List.filter_cons, List.filter_cons, ih]

theorem sort_by_key {α κ : Type} [LinearOrder κ] (key : α → κ) (cmp : α → α → Int)
    (h : ∀ a b, cmp a b ≤ 0 ↔ key a ≤ key b) (xs : List α) :
    (sort cmp xs).Perm xs ∧
    (sort cmp xs).Pairwise (fun a b => key a ≤ key b) ∧
    ∀ (k : κ) (P : α → Bool), (∀ a, P a = true ↔ key a = k) →
      (sort cmp xs).filter P = xs.filter P := by
  refine ⟨List.perm_insertionSort _ xs, ?_, ?_⟩
  · haveI : IsTotal α (fun a b => cmp a b ≤ 0) :=
      ⟨fun a b => by rw [h, h]; exact le_total _ _⟩
    haveI : IsTrans α (fun a b => cmp a b ≤ 0) :=
      ⟨fun a b c hab hbc => by rw [h] at *; exact le_trans hab hbc⟩
    have := List.sorted_insertionSort (fun a b => cmp a b ≤ 0) xs
    exact List.Pairwise.imp (fun hab => (h _ _).mp hab) this
  · intro k P hP
    apply filter_sort
    intro a b ha hb
    rw [h, (hP a).mp ha, (hP b).mp hb]

theorem compareBy_id_asc (host : Host) (a b : Pokemon) :
    compareBy host (some "id") (some "asc") a b ≤ 0 ↔ a.id ≤ b.id := by
  simp [compareBy]

theorem compareBy_id_desc (host : Host) (a b : Pokemon) :
    compareBy host (some "id") (some "desc") a b ≤ 0 ↔ b.id ≤ a.id := by
  have : ¬ ("desc" = "asc") := by decide
  simp [compareBy, this]

theorem compareBy_name_asc (host : Host) (a b : Pokemon) :
    compareBy host (some "name") (some "asc") a b ≤ 0
      ↔ codeUnits (host.toLowerCase a.name) ≤ codeUnits (host.toLowerCase b.name) := by
  have hf : ¬ ("name" = "id") := by decide
  simp only [compareBy, Option.some.injEq, hf, if_false, if_true]
  rcases lt_trichotomy (codeUnits (host.toLowerCase a.name)) (codeUnits (host.toLowerCase b.name))
    with h | h | h
  · have h1 : ¬ codeUnits (host.toLowerCase a.name) > codeUnits (host.toLowerCase b.name) :=
      not_lt.mpr (le_of_lt h)
    simp [ne_of_lt h, h1, le_of_lt h]
  · simp [h]
  · simp [ne_of_gt h, h, not_le.mpr h]

theorem compareBy_name_desc (host : Host) (a b : Pokemon) :
    compareBy host (some "name") (some "desc") a b ≤ 0
      ↔ codeUnits (host.toLowerCase b.name) ≤ codeUnits (host.toLowerCase a.name) := by
  have hf : ¬ ("name" = "id") := by decide
  have hd : ¬ ("desc" = "asc") := by decide
  simp only [compareBy, Option.some.injEq, hf, hd, if_false]
  rcases lt_trichotomy (codeUnits (host.toLowerCase a.name)) (codeUnits (host.toLowerCase b.name))
    with h | h | h
  · simp [ne_of_lt h, h, not_le.mpr h]
  · simp [h]
  · have h1 : ¬ codeUnits (host.toLowerCase a.name) < codeUnits (host.toLowerCase b.name) :=
      not_lt.mpr (le_of_lt h)
    simp [ne_of_gt h, h1, le_of_lt h]

theorem sortStep_eq (host : Host) (xs : List Pokemon) :
    sortStep host "id-asc" xs = sort (compareBy host (some "id") (some "asc")) xs ∧
    sortStep host "id-desc" xs = sort (compareBy host (some "id") (some "desc")) xs ∧
    sortStep host "name-asc" xs = sort (compareBy host (some "name") (some "asc")) xs ∧
    sortStep host "name-desc" xs = sort (compareBy host (some "name") (some "desc")) xs := by
  have h1 : splitDash "id-asc".data [] = ["id", "asc"] := by decide
  have h2 : splitDash "id-desc".data [] = ["id", "desc"] := by decide
  have h3 : splitDash "name-asc".data [] = ["name", "asc"] := by decide
  have h4 : splitDash "name-desc".data [] = ["name", "desc"] := by decide
  simp only [sortStep, h1, h2, h3, h4]
  simp


/-- C5: for each of the sort specs `id-asc`, `id-desc`, `name-asc` and
`name-desc`, the filtered subset that `applyFilters` leaves is a permutation of
the entities that passed the filter, ordered by the spec (ids non-decreasing or
non-increasing; lower-cased names non-decreasing or non-increasing in the
lexicographic order of their code units), and the entities with one and the
same id, or one and the same lower-cased name, stand in the order in which they
passed the filter. -/
theorem applyFilters_sorted (host : Host) (st : State) :
    ((applyFilters host { st with sortSelect := "id-asc" }).1.filtered.Perm
        (filterStep host (host.toLowerCase (host.trim st.search)) st.typeFilter st.allPokemon) ∧
      (applyFilters host { st with sortSelect := "id-asc" }).1.filtered.Pairwise
        (fun a b => a.id ≤ b.id) ∧
      ∀ k : Int,
        (applyFilters host { st with sortSelect := "id-asc" }).1.filtered.filter
            (fun a => decide (a.id = k))
          = (filterStep host (host.toLowerCase (host.trim st.search)) st.typeFilter
              st.allPokemon).filter (fun a => decide (a.id = k))) ∧
    ((applyFilters host { st with sortSelect := "id-desc" }).1.filtered.Perm
        (filterStep host (host.toLowerCase (host.trim st.search)) st.typeFilter st.allPokemon) ∧
      (applyFilters host { st with sortSelect := "id-desc" }).1.filtered.Pairwise
        (fun a b => b.id ≤ a.id) ∧
      ∀ k : Int,
        (applyFilters host { st with sortSelect := "id-desc" }).1.filtered.filter
            (fun a => decide (a.id = k))
          = (filterStep host (host.toLowerCase (host.trim st.search)) st.typeFilter
              st.allPokemon).filter (fun a => decide (a.id = k))) ∧
    ((applyFilters host { st with sortSelect := "name-asc" }).1.filtered.Perm
        (filterStep host (host.toLowerCase (host.trim st.search)) st.typeFilter st.allPokemon) ∧
      (applyFilters host { st with sortSelect := "name-asc" }).1.filtered.Pairwise
        (fun a b => codeUnits (host.toLowerCase a.name) ≤ codeUnits (host.toLowerCase b.name)) ∧
      ∀ k : List Nat,
        (applyFilters host { st with sortSelect := "name-asc" }).1.filtered.filter
            (fun a => decide (codeUnits (host.toLowerCase a.name) = k))
          = (filterStep host (host.toLowerCase (host.trim st.search)) st.typeFilter
              st.allPokemon).filter (fun a => decide (codeUnits (host.toLowerCase a.name) = k))) ∧
    ((applyFilters host { st with sortSelect := "name-desc" }).1.filtered.Perm
        (filterStep host (host.toLowerCase (host.trim st.search)) st.typeFilter st.allPokemon) ∧
      (applyFilters host { st with sortSelect := "name-desc" }).1.filtered.Pairwise
        (fun a b => codeUnits (host.toLowerCase b.name) ≤ codeUnits (host.toLowerCase a.name)) ∧
      ∀ k : List Nat,
        (applyFilters host { st with sortSelect := "name-desc" }).1.filtered.filter
            (fun a => decide (codeUnits (host.toLowerCase a.name) = k))
          = (filterStep host (host.toLowerCase (host.trim st.search)) st.typeFilter
              st.allPokemon).filter (fun a => decide (codeUnits (host.toLowerCase a.name) = k))) := by
  have key : ∀ s : String, (applyFilters host { st with sortSelect := s }).1.filtered
      = sortStep host s
          (filterStep host (host.toLowerCase (host.trim st.search)) st.typeFilter st.allPokemon) :=
    fun _ => rfl
  simp only [key]
  generalize filterStep host (host.toLowerCase (host.trim st.search)) st.typeFilter st.allPokemon = F
  obtain ⟨h1, h2, h3, h4⟩ := sortStep_eq host F
  rw [h1, h2, h3, h4]
  refine ⟨?_, ?_, ?_, ?_⟩
  · have := sort_by_key (fun a : Pokemon => a.id) _ (compareBy_id_asc host) F
    exact ⟨this.1, this.2.1, fun k => this.2.2 k _ (fun a => by simp)⟩
  · have := sort_by_key (fun a : Pokemon => OrderDual.toDual a.id)
      (compareBy host (some "id") (some "desc"))
      (fun a b => by rw [compareBy_id_desc]; rfl) F
    exact ⟨this.1, this.2.1, fun k => this.2.2 (OrderDual.toDual k) _ (fun a => by simp)⟩
  · have := sort_by_key (fun a : Pokemon => codeUnits (host.toLowerCase a.name)) _
      (compareBy_name_asc host) F
    exact ⟨this.1, this.2.1, fun k => this.2.2 k _ (fun a => by simp)⟩
  · have := sort_by_key (fun a : Pokemon => OrderDual.toDual (codeUnits (host.toLowerCase a.name)))
      (compareBy host (some "name") (some "desc"))
      (fun a b => by rw [compareBy_name_desc]; rfl) F
    exact ⟨this.1, this.2.1, fun k => this.2.2 (OrderDual.toDual k) _ (fun a => by simp)⟩


/-- A run of the sort step: by name ascending, `abra` comes first and the two
entities whose names differ only in case keep their order. -/
theorem sortStep_example :
    (sortStep asciiHost "name-asc"
        [{ id := 2, name := "pika" }, { id := 1, name := "Pika" }, { id := 3, name := "abra" }]).map
      (fun p => p.id) = [3, 2, 1] ∧
    (sortStep asciiHost "id-desc"
        [{ id := 2, name := "pika" }, { id := 1, name := "Pika" }, { id := 3, name := "abra" }]).map
      (fun p => p.id) = [3, 2, 1] := by
  decide

/-! ## Page size -/

/-- C6 (counterexample): the page-size values `0` and `abc` are not replaced by
12: `render` uses the page size 0 and reports `Infinity` pages for 25
entities, and uses NaN and reports NaN pages for `abc`. -/
theorem render_zero_page_size :
    perPageOf asciiHost "0" = JSNum.int 0 ∧
    (render asciiHost { initial (numbered 25) with perPage := "0" }).2.pages = JSNum.posInf ∧
    (render asciiHost { initial (numbered 25) with perPage := "0" }).2.pageItems = [] ∧
    perPageOf asciiHost "abc" = JSNum.nan ∧
    (render asciiHost { initial (numbered 25) with perPage := "abc" }).2.pages = JSNum.nan := by
  decide

theorem fdiv_neg_nonneg (n : Nat) (p : Int) (hp : p < 0) : 0 ≤ Int.fdiv (-(n : Int)) p := by
  obtain ⟨j, rfl⟩ : ∃ j : Nat, p = Int.negSucc j :=
    ⟨(-p - 1).toNat, by rw [Int.negSucc_eq]; omega⟩
  cases n with
  | zero => simp [Int.fdiv]
  | succ k =>
    have : -((k + 1 : Nat) : Int) = Int.negSucc k := by rw [Int.negSucc_eq]; push_cast; ring
    rw [this]
    simp [Int.fdiv]
    positivity

/-- C6 (amended): `render` uses the page size 12 when the value of the
page-size control is empty and the number the value converts to otherwise,
without validating it. The page count `max(1, ceil(total / pageSize))` it
computes is a finite integer that is at least 1 whenever that page size is a
non-zero integer or infinite: `max(1, ceil(total / p))` for an integer
`p ≥ 1`, and 1 for a negative or infinite size. For the page size 0 the page
count is `Infinity` (NaN when nothing is filtered) and for a value that is not
a number it is NaN; in both cases no entity is drawn, whatever integer
`currentPage` is. For a negative size `p` and `currentPage ≥ 1` the first
`max(0, total + p)` entities are drawn. -/
theorem render_page_size (host : Host) (st : State) :
    (st.perPage = "" →
      perPageOf host st.perPage = JSNum.int 12 ∧
      (render host st).2.pages
        = JSNum.int ((max 1 ⌈(st.filtered.length : ℚ) / (12 : Nat)⌉₊ : Nat) : Int)) ∧
    (st.perPage ≠ "" →
      perPageOf host st.perPage = host.toNumber st.perPage ∧
      (∀ p : Nat, host.toNumber st.perPage = JSNum.int p → 1 ≤ p →
        (render host st).2.pages
            = JSNum.int ((max 1 ⌈(st.filtered.length : ℚ) / p⌉₊ : Nat) : Int) ∧
        (1 : Int) ≤ ((max 1 ⌈(st.filtered.length : ℚ) / p⌉₊ : Nat) : Int)) ∧
      (∀ p : Int, host.toNumber st.perPage = JSNum.int p → p < 0 →
        (render host st).2.pages = JSNum.int 1 ∧
        ∀ c : Int, st.currentPage = JSNum.int c → 1 ≤ c →
          (render host st).2.pageItems
            = st.filtered.take ((st.filtered.length : Int) + p).toNat) ∧
      (host.toNumber st.perPage = JSNum.posInf ∨ host.toNumber st.perPage = JSNum.negInf →
        (render host st).2.pages = JSNum.int 1) ∧
      (host.toNumber st.perPage = JSNum.int 0 →
        (render host st).2.pages
            = (if st.filtered.length = 0 then JSNum.nan else JSNum.posInf) ∧
        ∀ c : Int, st.currentPage = JSNum.int c →
          (render host st).1.currentPage = JSNum.int c ∧ (render host st).2.pageItems = []) ∧
      (host.toNumber st.perPage = JSNum.nan →
        (render host st).2.pages = JSNum.nan ∧
        ∀ c : Int, st.currentPage = JSNum.int c →
          (render host st).1.currentPage = JSNum.int c ∧ (render host st).2.pageItems = [])) := by
  have hpagesNat : ∀ p : Nat, 1 ≤ p →
      JSNum.max1 (JSNum.ceilDiv st.filtered.length (JSNum.int p))
        = JSNum.int ((max 1 ⌈(st.filtered.length : ℚ) / p⌉₊ : Nat) : Int) := by
    intro p hp
    rw [ceilDiv_int _ _ hp, JSNum.max1]
    congr 1
    push_cast
    rfl
  constructor
  · intro he
    have hpp : perPageOf host st.perPage = JSNum.int ((12 : Nat) : Int) := by
      simp [perPageOf, he]
    refine ⟨by simpa using hpp, ?_⟩
    simp only [render, hpp, hpagesNat 12 (by decide)]
  · intro hne
    have hpp : perPageOf host st.perPage = host.toNumber st.perPage := by
      simp [perPageOf, hne]
    refine ⟨hpp, ?_, ?_, ?_, ?_, ?_⟩
    · intro p hp h1
      refine ⟨by simp only [render, hpp, hp, hpagesNat p h1], ?_⟩
      have : 1 ≤ (max 1 ⌈(st.filtered.length : ℚ) / p⌉₊ : Nat) := Nat.le_max_left _ _
      omega
    · intro p hp hneg
      have hp0 : p ≠ 0 := by omega
      have hfd := fdiv_neg_nonneg st.filtered.length p hneg
      have hpages : JSNum.max1 (JSNum.ceilDiv st.filtered.length (JSNum.int p)) = JSNum.int 1 := by
        simp only [JSNum.ceilDiv, hp0, if_false, JSNum.max1]
        congr 1
        omega
      refine ⟨by simp only [render, hpp, hp, hpages], ?_⟩
      intro c hc h1
      have hgt : (if JSNum.gt (JSNum.int c) (JSNum.int 1) then JSNum.int 1 else JSNum.int c)
          = JSNum.int (min c 1) := by
        simp only [JSNum.gt]
        by_cases h : c > 1
        · simp [h, Int.min_eq_right (Int.le_of_lt h)]
        · simp [h, Int.min_eq_left (Int.not_lt.mp h)]
      have hmin : min c 1 = 1 := by omega
      simp only [render, hpp, hp, hpages, hc, hgt, hmin, JSNum.sub, JSNum.mul, JSNum.add, slice,
        relIndex]
      simp [hneg]
    · intro hinf
      rcases hinf with h | h <;> simp [render, hpp, h, JSNum.ceilDiv, JSNum.max1]
    · intro hz
      have hpages : JSNum.max1 (JSNum.ceilDiv st.filtered.length (JSNum.int 0))
          = (if st.filtered.length = 0 then JSNum.nan else JSNum.posInf) := by
        by_cases h : st.filtered.length = 0 <;> simp [JSNum.ceilDiv, JSNum.max1, h]
      refine ⟨by simp only [render, hpp, hz, hpages], ?_⟩
      intro c hc
      have hgt : JSNum.gt (JSNum.int c)
          (if st.filtered.length = 0 then JSNum.nan else JSNum.posInf) = false := by
        by_cases h : st.filtered.length = 0 <;> simp [JSNum.gt, h]
      constructor
      · simp only [render, hpp, hz, hpages, hc, hgt]
        simp
      · simp only [render, hpp, hz, hpages, hc, hgt]
        simp [JSNum.sub, JSNum.mul, JSNum.add, slice, relIndex]
    · intro hnan
      have hpages : JSNum.max1 (JSNum.ceilDiv st.filtered.length JSNum.nan) = JSNum.nan := rfl
      refine ⟨by simp only [render, hpp, hnan, hpages], ?_⟩
      intro c hc
      constructor
      · simp [render, hpp, hnan, hpages, hc, JSNum.gt]
      · simp [render, hpp, hnan, hpages, hc, JSNum.gt, JSNum.sub, JSNum.mul, JSNum.add, slice,
          relIndex]

theorem render_page_size_witness :
    (({ initial (numbered 25) with perPage := "0" } : State).perPage ≠ "" ∧
      asciiHost.toNumber ({ initial (numbered 25) with perPage := "0" } : State).perPage
        = JSNum.int 0 ∧
      ({ initial (numbered 25) with perPage := "0" } : State).currentPage = JSNum.int 1) ∧
    (render asciiHost { initial (numbered 25) with perPage := "0" }).2.pages = JSNum.posInf ∧
    (render asciiHost { initial (numbered 25) with perPage := "0" }).2.pageItems = [] ∧
    (render asciiHost { initial (numbered 25) with perPage := "24" }).2.pages = JSNum.int 2 := by
  have h0 := ((render_page_size asciiHost { initial (numbered 25) with perPage := "0" }).2
    (by decide)).2.2.2.2.1 (by decide)
  have h24 := (((render_page_size asciiHost { initial (numbered 25) with perPage := "24" }).2
    (by decide)).2.1 24 (by decide) (by decide)).1
  have hlen : ({ initial (numbered 25) with perPage := "24" } : State).filtered.length = 25 := by
    decide
  have hc : max 1 ⌈((({ initial (numbered 25) with perPage := "24" } : State).filtered.length
      : Nat) : ℚ) / ((24 : Nat) : ℚ)⌉₊ = 2 := by
    rw [hlen, natCeil_div 25 24 (by decide)]
    decide
  simp only [hc] at h24
  refine ⟨⟨by decide, by decide, rfl⟩, ?_, (h0.2 1 rfl).2, h24⟩
  have := h0.1
  simpa using this

/-! ## Page-number window -/

/-- C7: for `pageCount ≥ 2` and `1 ≤ currentPage ≤ pageCount` the window
`[start, end]` of `renderPagination` satisfies
`1 ≤ start ≤ currentPage ≤ end ≤ pageCount`, holds exactly `min(7, pageCount)`
consecutive page numbers, is `[currentPage - 3, currentPage + 3]` when that
lies inside `[1, pageCount]`, and otherwise is that interval shifted just
enough to stay inside: `start = max(1, min(currentPage - 3, pageCount - 6))`
and `end = min(pageCount, max(currentPage + 3, 7))`. -/
theorem pageWindow_spec (pages currentPage : Int) (hp : 2 ≤ pages) (h1 : 1 ≤ currentPage)
    (h2 : currentPage ≤ pages) :
    1 ≤ (pageWindow pages currentPage).1 ∧
    (pageWindow pages currentPage).1 ≤ currentPage ∧
    currentPage ≤ (pageWindow pages currentPage).2 ∧
    (pageWindow pages currentPage).2 ≤ pages ∧
    (pageWindow pages currentPage).2 - (pageWindow pages currentPage).1 + 1 = min 7 pages ∧
    (windowButtons (pageWindow pages currentPage).1 (pageWindow pages currentPage).2
        currentPage).filterMap Control.page?
      = (List.range (min 7 pages).toNat).map (fun (k : Nat) => (pageWindow pages currentPage).1 + k) ∧
    (1 ≤ currentPage - 3 → currentPage + 3 ≤ pages →
      pageWindow pages currentPage = (currentPage - 3, currentPage + 3)) ∧
    (pageWindow pages currentPage).1 = max 1 (min (currentPage - 3) (pages - 6)) ∧
    (pageWindow pages currentPage).2 = min pages (max (currentPage + 3) 7) := by
  have hs : (pageWindow pages currentPage).1 = max 1 (min (currentPage - 3) (pages - 6)) := by
    simp only [pageWindow]
    split_ifs <;> omega
  have he : (pageWindow pages currentPage).2 = min pages (max (currentPage + 3) 7) := by
    simp only [pageWindow]
    omega
  have hlen : (pageWindow pages currentPage).2 - (pageWindow pages currentPage).1 + 1
      = min 7 pages := by
    rw [hs, he]; omega
  refine ⟨by rw [hs]; omega, by rw [hs]; omega, by rw [he]; omega, by rw [he]; omega, hlen,
    ?_, ?_, hs, he⟩
  · rw [windowButtons, hlen, List.filterMap_map]
    rw [← List.filterMap_eq_map]
    rfl
  · intro ha hb
    rw [Prod.ext_iff, hs, he]
    constructor <;> simp only <;> omega

theorem pageWindow_spec_witness :
    ((2 : Int) ≤ 20 ∧ (1 : Int) ≤ 19 ∧ (19 : Int) ≤ 20) ∧ pageWindow 20 19 = (14, 20) ∧
    (pageWindow 20 19).2 - (pageWindow 20 19).1 + 1 = min 7 20 := by
  have h := pageWindow_spec 20 19 (by decide) (by decide) (by decide)
  exact ⟨⟨by decide, by decide, by decide⟩, by decide, h.2.2.2.2.1⟩


/-! ## Reset -/

/-- C8: on a host whose `trim` and `toLowerCase` keep the empty string empty
and whose `Number("12")` is 12, `resetFilters` leaves, from every state, the
search text empty, no type selected, the sort spec `id-asc`, the page size 12
and `currentPage = 1`; the filtered subset is the whole dataset ordered by
ascending id (a permutation of it with non-decreasing ids, entities of equal
id in dataset order), and the visible slice is the first `min(12, n)` entities
of that order. -/
theorem resetFilters_spec (host : Host) (st : State) (htrim : host.trim "" = "")
    (hlower : host.toLowerCase "" = "") (hnum : host.toNumber "12" = JSNum.int 12) :
    (resetFilters host st).1.search = "" ∧
    (resetFilters host st).1.typeFilter = "" ∧
    (resetFilters host st).1.sortSelect = "id-asc" ∧
    (resetFilters host st).1.perPage = "12" ∧
    perPageOf host (resetFilters host st).1.perPage = JSNum.int 12 ∧
    (resetFilters host st).1.currentPage = JSNum.int 1 ∧
    (resetFilters host st).1.allPokemon = st.allPokemon ∧
    (resetFilters host st).1.filtered.Perm st.allPokemon ∧
    (resetFilters host st).1.filtered.Pairwise (fun a b => a.id ≤ b.id) ∧
    (∀ k : Int, (resetFilters host st).1.filtered.filter (fun a => decide (a.id = k))
      = st.allPokemon.filter (fun a => decide (a.id = k))) ∧
    (resetFilters host st).2.pageItems = (resetFilters host st).1.filtered.take 12 ∧
    (resetFilters host st).2.pageItems.length = min 12 st.allPokemon.length := by
  have hpp : perPageOf host "12" = JSNum.int ((12 : Nat) : Int) := by
    have : ¬ ("12" = "") := by decide
    simp [perPageOf, this, hnum]
  have hfilt : (resetFilters host st).1.filtered = sortStep host "id-asc" st.allPokemon := by
    show sortStep host "id-asc" (filterStep host (host.toLowerCase (host.trim "")) "" st.allPokemon)
      = _
    rw [htrim, hlower]
    unfold filterStep
    rw [List.filter_eq_self.mpr]
    intro p _
    rw [passesFilter_iff]
    simp
  have hsort := sort_by_key (fun a : Pokemon => a.id) _ (compareBy_id_asc host) st.allPokemon
  rw [← (sortStep_eq host st.allPokemon).1, ← hfilt] at hsort
  have hr := render_of_int host
    { search := "", typeFilter := "", sortSelect := "id-asc", perPage := "12",
      allPokemon := st.allPokemon,
      filtered := sortStep host "id-asc"
        (filterStep host (host.toLowerCase (host.trim "")) "" st.allPokemon),
      currentPage := JSNum.int 1 } 12 1 (by decide) (by decide) hpp rfl
  have hcur : (resetFilters host st).1.currentPage = JSNum.int 1 := by
    have := hr.1
    have hmin : ∀ P : Nat, min (1 : Int) ((max 1 P : Nat) : Int) = 1 := by
      intro P
      have : 1 ≤ max 1 P := Nat.le_max_left _ _
      omega
    rw [hmin] at this
    exact this
  have hitems : (resetFilters host st).2.pageItems = (resetFilters host st).1.filtered.take 12 := by
    have := hr.2.2
    have hmin : ∀ P : Nat, (min (1 : Int) ((max 1 P : Nat) : Int) - 1).toNat = 0 := by
      intro P
      have : 1 ≤ max 1 P := Nat.le_max_left _ _
      omega
    rw [hmin] at this
    simpa using this
  refine ⟨rfl, rfl, rfl, rfl, by simpa using hpp, hcur, rfl, hsort.1, hsort.2.1,
    fun k => hsort.2.2 k _ (fun a => by simp), hitems, ?_⟩
  rw [hitems, List.length_take, hsort.1.length_eq]

theorem resetFilters_spec_witness :
    (asciiHost.trim "" = "" ∧ asciiHost.toLowerCase "" = "" ∧
      asciiHost.toNumber "12" = JSNum.int 12) ∧
    (resetFilters asciiHost
      { search := "zzz", typeFilter := "fire", sortSelect := "name-desc", perPage := "24",
        allPokemon := [charmander, bulbasaur], filtered := [], currentPage := JSNum.int 5 }).2.pageItems
      = [bulbasaur, charmander] := by
  have h := resetFilters_spec asciiHost
    { search := "zzz", typeFilter := "fire", sortSelect := "name-desc", perPage := "24",
      allPokemon := [charmander, bulbasaur], filtered := [], currentPage := JSNum.int 5 }
    (by decide) (by decide) (by decide)
  refine ⟨⟨by decide, by decide, by decide⟩, ?_⟩
  rw [h.2.2.2.2.2.2.2.2.2.2.1]
  decide


/-! ## Detail view -/

theorem truthy_eq_false (v : JSDouble) :
    v.truthy = false ↔ v = JSDouble.nan ∨ v = JSDouble.fin 0 := by
  cases v <;> simp [JSDouble.truthy]

/-- C9 (counterexample): an entity whose height and weight are present and
equal to 0 gets the placeholder in both rows (`- m`, `- kg`) although `String(0)`
is `0`, and an abilities sequence that is present and non-empty, `[""]`, gets
the placeholder too. -/
theorem openModal_zero_height :
    (openModal asciiHost
      { id := 1, name := "bulbasaur", height := some (JSDouble.fin 0),
        weight := some (JSDouble.fin 0), abilities := some [""],
        base_experience := some (JSDouble.fin 0) }).specs
      = [("Height", "- m"), ("Weight", "- kg"), ("Abilities", "-"), ("Base experience", "0")] ∧
    asciiHost.numberToString (JSDouble.fin 0) = "0" := by
  decide

/-- C9 (amended): for every entity, whatever numbers its optional fields hold,
the attribute list of `openModal` has the four rows Height, Weight, Abilities
and Base experience. The height cell is the text `String(height)` of the
height, or the placeholder `-` when the height is absent, zero or NaN, followed
by ` m`; the weight cell likewise with ` kg`; the abilities cell is the
abilities, each capitalized, joined by `, `, or the placeholder `-` when that
text is empty (so when the sequence is absent or empty); the base-experience
cell is the text of its number, or `-` exactly when it is absent. `openModal`
is total. -/
theorem openModal_specs (host : Host) (p : Pokemon) :
    ∃ h w a b : String,
      (openModal host p).specs
        = [("Height", h ++ " m"), ("Weight", w ++ " kg"), ("Abilities", a),
           ("Base experience", b)] ∧
      (p.height = none → h = "-") ∧
      (∀ v, p.height = some v → (v = JSDouble.nan ∨ v = JSDouble.fin 0) → h = "-") ∧
      (∀ v, p.height = some v → v ≠ JSDouble.nan → v ≠ JSDouble.fin 0 →
        h = host.numberToString v) ∧
      (p.weight = none → w = "-") ∧
      (∀ v, p.weight = some v → (v = JSDouble.nan ∨ v = JSDouble.fin 0) → w = "-") ∧
      (∀ v, p.weight = some v → v ≠ JSDouble.nan → v ≠ JSDouble.fin 0 →
        w = host.numberToString v) ∧
      (p.abilities = none ∨ p.abilities = some [] → a = "-") ∧
      (∀ l, p.abilities = some l → String.intercalate ", " (l.map (capitalize host)) ≠ "" →
        a = String.intercalate ", " (l.map (capitalize host))) ∧
      (∀ l, p.abilities = some l → String.intercalate ", " (l.map (capitalize host)) = "" →
        a = "-") ∧
      (p.base_experience = none → b = "-") ∧
      (∀ v, p.base_experience = some v → b = host.numberToString v) := by
  have hnum : ∀ x : Option JSDouble,
      (x = none → numOrDash host x = "-") ∧
      (∀ v, x = some v → (v = JSDouble.nan ∨ v = JSDouble.fin 0) → numOrDash host x = "-") ∧
      (∀ v, x = some v → v ≠ JSDouble.nan → v ≠ JSDouble.fin 0 →
        numOrDash host x = host.numberToString v) := by
    intro x
    refine ⟨fun h => by rw [h]; rfl, ?_, ?_⟩
    · intro v hv hf
      have := (truthy_eq_false v).mpr hf
      rw [hv]; simp [numOrDash, this]
    · intro v hv h1 h2
      have : v.truthy = true := by
        cases hb : v.truthy
        · rcases (truthy_eq_false v).mp hb with h | h
          · exact absurd h h1
          · exact absurd h h2
        · rfl
      rw [hv]; simp [numOrDash, this]
  refine ⟨numOrDash host p.height, numOrDash host p.weight, abilitiesText host p.abilities,
    numCoalesceDash host p.base_experience, rfl, (hnum p.height).1, (hnum p.height).2.1,
    (hnum p.height).2.2, (hnum p.weight).1, (hnum p.weight).2.1, (hnum p.weight).2.2,
    ?_, ?_, ?_, ?_, ?_⟩
  · rintro (h | h) <;> rw [h] <;> rfl
  · intro l hl hne
    rw [hl]; simp [abilitiesText, hne]
  · intro l hl he
    rw [hl]; simp [abilitiesText, he]
  · intro h; rw [h]; rfl
  · intro v h; rw [h]; rfl

theorem openModal_specs_witness :
    (openModal asciiHost
      { id := 1, name := "bulbasaur", height := some (JSDouble.fin (7 / 10)), weight := none,
        abilities := some ["overgrow", "chlorophyll"],
        base_experience := some (JSDouble.fin 64) }).specs
      = [("Height", asciiHost.numberToString (JSDouble.fin (7 / 10)) ++ " m"),
         ("Weight", "- kg"), ("Abilities", "Overgrow, Chlorophyll"),
         ("Base experience", "64")] := by
  obtain ⟨h, w, a, b, hs, -, -, hh, hw, -, -, -, ha, -, -, hb⟩ := openModal_specs asciiHost
    { id := 1, name := "bulbasaur", height := some (JSDouble.fin (7 / 10)), weight := none,
      abilities := some ["overgrow", "chlorophyll"], base_experience := some (JSDouble.fin 64) }
  have hne : JSDouble.fin (7 / 10) ≠ JSDouble.fin 0 := by
    intro he
    have := JSDouble.fin.inj he
    norm_num at this
  have e1 : "-" ++ " kg" = "- kg" := by decide
  have e2 : String.intercalate ", " (["overgrow", "chlorophyll"].map (capitalize asciiHost))
      = "Overgrow, Chlorophyll" := by decide
  have e3 : asciiHost.numberToString (JSDouble.fin 64) = "64" := by decide
  rw [hs, hh (JSDouble.fin (7 / 10)) rfl (by simp) hne, hw rfl,
    ha ["overgrow", "chlorophyll"] rfl (by decide), hb (JSDouble.fin 64) rfl, e1, e2, e3]

/-! ## Pagination controls -/

theorem spaced_snoc (cur : Int) (l : List Int) (a c : Int) :
    spaced cur (l ++ [a, c])
      = spaced cur (l ++ [a]) ++ ((if c - a > 1 then [Control.dots] else []) ++ [pageButton cur c]) := by
  induction l with
  | nil => simp [spaced]
  | cons x l ih =>
    cases l with
    | nil =>
      simp only [List.cons_append, List.nil_append, spaced, List.append_assoc, List.cons_append,
        List.nil_append]
    | cons y l =>
      simp only [List.cons_append] at ih ⊢
      rw [spaced.eq_3, ih, spaced.eq_3]
      simp

theorem range_map_shift {β : Type} (f : Int → β) (s : Int) (m : Nat) :
    (List.range (m + 1)).map (fun (k : Nat) => f (s + (k : Int)))
      = f s :: (List.range m).map (fun (k : Nat) => f ((s + 1) + (k : Int))) := by
  rw [List.range_succ_eq_map, List.map_cons, List.map_map]
  simp only [Nat.cast_zero, add_zero, List.cons.injEq, true_and]
  apply List.map_congr_left
  intro k _
  simp only [Function.comp, Nat.succ_eq_add_one, Nat.cast_add, Nat.cast_one]
  congr 1
  ring

theorem spaced_consecutive (cur : Int) (n : Nat) (s : Int) :
    spaced cur ((List.range n).map (fun (k : Nat) => s + (k : Int)))
      = (List.range n).map (fun (k : Nat) => pageButton cur (s + (k : Int))) := by
  induction n generalizing s with
  | zero => simp [spaced]
  | succ n ih =>
    rw [range_map_shift (fun x => x) s n, range_map_shift (pageButton cur) s n, ← ih (s + 1)]
    cases n with
    | zero => simp [spaced]
    | succ m =>
      rw [range_map_shift (fun x => x) (s + 1) m, spaced.eq_3]
      simp


theorem spaced_pages (cur : Int) (ps : List Int) :
    (spaced cur ps).filterMap Control.page? = ps := by
  induction ps with
  | nil => rfl
  | cons a l ih =>
    cases l with
    | nil => rfl
    | cons b r =>
      rw [spaced.eq_3, List.filterMap_cons, List.filterMap_append, ih]
      by_cases h : b - a > 1 <;> simp [h, pageButton, Control.page?]

theorem spaced_aria (cur : Int) (ps : List Int) :
    (spaced cur ps).filter Control.ariaCurrent
      = (ps.filter (fun a => decide (a = cur))).map (pageButton cur) := by
  induction ps with
  | nil => rfl
  | cons a l ih =>
    cases l with
    | nil =>
      by_cases h : a = cur <;> simp [spaced, pageButton, Control.ariaCurrent, h]
    | cons b r =>
      rw [spaced.eq_3, List.filter_cons, List.filter_append, ih]
      by_cases h : a = cur <;> by_cases h' : b - a > 1 <;>
        simp [pageButton, Control.ariaCurrent, h, h', List.filter_cons]

theorem pageButton_first (cur : Int) :
    Control.button "1" 1 (decide (cur = 1)) = pageButton cur 1 := by
  have h : toString (1 : Int) = "1" := by decide
  simp only [pageButton, h, Control.button.injEq, true_and]
  exact decide_eq_decide.mpr eq_comm

theorem pageButton_last (cur pages : Int) :
    Control.button (toString pages) pages (decide (cur = pages)) = pageButton cur pages := by
  simp only [pageButton, Control.button.injEq, true_and]
  exact decide_eq_decide.mpr eq_comm

theorem range_map_snoc {β : Type} (f : Int → β) (s : Int) (m : Nat) :
    (List.range (m + 1)).map (fun (k : Nat) => f (s + (k : Int)))
      = (List.range m).map (fun (k : Nat) => f (s + (k : Int))) ++ [f (s + (m : Int))] := by
  rw [List.range_succ, List.map_append]
  rfl

theorem controls_eq_spaced (pages cur s : Int) (m : Nat) :
    (if s > 1 then
        [Control.button "1" 1 (decide (cur = 1))] ++ (if s > 2 then [Control.dots] else [])
      else [])
      ++ (List.range (m + 1)).map (fun (k : Nat) => pageButton cur (s + (k : Int)))
      ++ (if s + (m : Int) < pages then
            (if s + (m : Int) < pages - 1 then [Control.dots] else [])
            ++ [Control.button (toString pages) pages (decide (cur = pages))]
          else [])
    = spaced cur
        ((if s > 1 then [1] else [])
          ++ (List.range (m + 1)).map (fun (k : Nat) => s + (k : Int))
          ++ (if s + (m : Int) < pages then [pages] else [])) := by
  rw [pageButton_first, pageButton_last]
  have hgap1 : (s - 1 > 1) ↔ s > 2 := by omega
  have hgap2 : (pages - (s + (m : Int)) > 1) ↔ s + (m : Int) < pages - 1 := by omega
  have hlead : ∀ r : List Int, spaced cur (1 :: s :: r)
      = [pageButton cur 1] ++ (if s > 2 then [Control.dots] else []) ++ spaced cur (s :: r) := by
    intro r
    rw [spaced.eq_3]
    simp only [hgap1, List.singleton_append, List.cons_append, List.nil_append]
  have htrail : ∀ l : List Int, spaced cur (l ++ [s + (m : Int), pages])
      = spaced cur (l ++ [s + (m : Int)])
        ++ ((if s + (m : Int) < pages - 1 then [Control.dots] else []) ++ [pageButton cur pages]) := by
    intro l
    rw [spaced_snoc]
    simp only [hgap2]
  have hW := spaced_consecutive cur (m + 1) s
  have hsnoc : (List.range (m + 1)).map (fun (k : Nat) => s + (k : Int))
      = (List.range m).map (fun (k : Nat) => s + (k : Int)) ++ [s + (m : Int)] :=
    range_map_snoc (fun x => x) s m
  have hshift : (List.range (m + 1)).map (fun (k : Nat) => s + (k : Int))
      = s :: (List.range m).map (fun (k : Nat) => (s + 1) + (k : Int)) :=
    range_map_shift (fun x => x) s m
  have hleadW : spaced cur (1 :: (List.range (m + 1)).map (fun (k : Nat) => s + (k : Int)))
      = [pageButton cur 1] ++ (if s > 2 then [Control.dots] else [])
        ++ (List.range (m + 1)).map (fun (k : Nat) => pageButton cur (s + (k : Int))) := by
    rw [← hW]
    conv_lhs => rw [hshift]
    rw [hlead, ← hshift]
  by_cases h1 : s > 1 <;> by_cases h2 : s + (m : Int) < pages
  · simp only [h1, h2, if_true]
    have hps : [(1 : Int)] ++ (List.range (m + 1)).map (fun (k : Nat) => s + (k : Int)) ++ [pages]
        = (1 :: (List.range m).map (fun (k : Nat) => s + (k : Int))) ++ [s + (m : Int), pages] := by
      rw [hsnoc]; simp
    have hps2 : (1 :: (List.range m).map (fun (k : Nat) => s + (k : Int))) ++ [s + (m : Int)]
        = 1 :: (List.range (m + 1)).map (fun (k : Nat) => s + (k : Int)) := by
      rw [hsnoc]; simp
    rw [hps, htrail, hps2, hleadW]
  · simp only [h1, h2, if_true, if_false, List.append_nil]
    have hps : [(1 : Int)] ++ (List.range (m + 1)).map (fun (k : Nat) => s + (k : Int))
        = 1 :: (List.range (m + 1)).map (fun (k : Nat) => s + (k : Int)) := rfl
    rw [hps, hleadW]
  · simp only [h1, h2, if_true, if_false, List.nil_append]
    have hps : (List.range (m + 1)).map (fun (k : Nat) => s + (k : Int)) ++ [pages]
        = (List.range m).map (fun (k : Nat) => s + (k : Int)) ++ [s + (m : Int), pages] := by
      rw [hsnoc]; simp
    rw [hps, htrail, ← hsnoc, hW]
  · simp only [h1, h2, if_false, List.nil_append, List.append_nil]
    rw [hW]


theorem pageWindow_closed (pages cur : Int) (hp : 2 ≤ pages) (h1 : 1 ≤ cur) (h2 : cur ≤ pages) :
    (pageWindow pages cur).1 = max 1 (min (cur - 3) (pages - 6)) ∧
    (pageWindow pages cur).2 = min pages (max (cur + 3) 7) := by
  constructor
  · simp only [pageWindow]
    split_ifs <;> omega
  · simp only [pageWindow]
    omega

theorem pageNumbers_props (pages cur s : Int) (m : Nat) (hs1 : 1 ≤ s) (hsc : s ≤ cur)
    (hce : cur ≤ s + (m : Int)) (hep : s + (m : Int) ≤ pages) :
    ((if s > 1 then [1] else [])
        ++ (List.range (m + 1)).map (fun (k : Nat) => s + (k : Int))
        ++ (if s + (m : Int) < pages then [pages] else [])).Pairwise (· < ·) ∧
    ((if s > 1 then [1] else [])
        ++ (List.range (m + 1)).map (fun (k : Nat) => s + (k : Int))
        ++ (if s + (m : Int) < pages then [pages] else [])).head? = some 1 ∧
    ((if s > 1 then [1] else [])
        ++ (List.range (m + 1)).map (fun (k : Nat) => s + (k : Int))
        ++ (if s + (m : Int) < pages then [pages] else [])).getLast? = some pages ∧
    cur ∈ ((if s > 1 then [1] else [])
        ++ (List.range (m + 1)).map (fun (k : Nat) => s + (k : Int))
        ++ (if s + (m : Int) < pages then [pages] else [])) := by
  have hWmem : ∀ x ∈ (List.range (m + 1)).map (fun (k : Nat) => s + (k : Int)),
      s ≤ x ∧ x ≤ s + (m : Int) := by
    intro x hx
    obtain ⟨k, hk, rfl⟩ := List.mem_map.mp hx
    have := List.mem_range.mp hk
    omega
  have hWpair : ((List.range (m + 1)).map (fun (k : Nat) => s + (k : Int))).Pairwise (· < ·) := by
    rw [List.pairwise_map]
    exact List.Pairwise.imp (fun h => by omega) (List.pairwise_lt_range (m + 1))
  have hcur : cur ∈ (List.range (m + 1)).map (fun (k : Nat) => s + (k : Int)) := by
    refine List.mem_map.mpr ⟨(cur - s).toNat, List.mem_range.mpr (by omega), by omega⟩
  refine ⟨?_, ?_, ?_, ?_⟩
  · rw [List.pairwise_append, List.pairwise_append]
    refine ⟨⟨?_, hWpair, ?_⟩, ?_, ?_⟩
    · split_ifs <;> simp
    · intro a ha b hb
      split_ifs at ha with h
      · simp only [List.mem_singleton] at ha
        have := (hWmem b hb).1
        omega
      · simp at ha
    · split_ifs <;> simp
    · intro a ha b hb
      split_ifs at hb with h
      · simp only [List.mem_singleton] at hb
        rcases List.mem_append.mp ha with ha | ha
        · split_ifs at ha with h'
          · simp only [List.mem_singleton] at ha
            omega
          · simp at ha
        · have := (hWmem a ha).2
          omega
      · simp at hb
  · by_cases h : s > 1
    · simp [h]
    · have : s = 1 := by omega
      simp only [h, if_false, List.nil_append, range_map_shift (fun x => x) s m]
      simp [this]
  · by_cases h : s + (m : Int) < pages
    · simp only [h, if_true]
      rw [List.getLast?_concat]
    · have : s + (m : Int) = pages := by omega
      simp only [h, if_false, List.append_nil, range_map_snoc (fun x => x) s m]
      rw [← List.append_assoc, List.getLast?_concat, this]
  · exact List.mem_append.mpr (Or.inl (List.mem_append.mpr (Or.inr hcur)))


/-- C10: for `pageCount ≥ 2` and `1 ≤ currentPage ≤ pageCount`,
`renderPagination` emits Prev, then the buttons of a strictly increasing list
of page numbers that begins with 1, ends with `pageCount` and contains
`currentPage`, then Next. Each button is labelled with its number; exactly one
is marked `aria-current`, the button of `currentPage`; an ellipsis spacer
stands between two neighbouring buttons exactly when their numbers differ by
more than 1; Prev is disabled exactly when `currentPage = 1` and Next exactly
when `currentPage = pageCount`. For `pageCount ≤ 1` nothing is emitted. -/
theorem renderPagination_spec (pages currentPage : Int) (hp : 2 ≤ pages) (h1 : 1 ≤ currentPage)
    (h2 : currentPage ≤ pages) :
    (∃ ps : List Int,
      renderPagination pages currentPage
        = Control.prev (decide (currentPage = 1))
            :: (spaced currentPage ps ++ [Control.next (decide (currentPage = pages))]) ∧
      (spaced currentPage ps).filterMap Control.page? = ps ∧
      ps.Pairwise (· < ·) ∧
      ps.head? = some 1 ∧
      ps.getLast? = some pages ∧
      currentPage ∈ ps ∧
      (spaced currentPage ps).filter Control.ariaCurrent
        = [Control.button (toString currentPage) currentPage true]) ∧
    (∀ n c : Int, n ≤ 1 → renderPagination n c = []) := by
  refine ⟨?_, fun n c hn => by simp [renderPagination, hn]⟩
  obtain ⟨hs, he⟩ := pageWindow_closed pages currentPage hp h1 h2
  generalize hw : pageWindow pages currentPage = w at hs he
  obtain ⟨s, e⟩ := w
  simp only at hs he
  obtain ⟨m, hm⟩ : ∃ m : Nat, e = s + (m : Int) := ⟨(e - s).toNat, by omega⟩
  have hprops := pageNumbers_props pages currentPage s m (by omega) (by omega) (by omega) (by omega)
  refine ⟨_, ?_, spaced_pages _ _, hprops.1, hprops.2.1, hprops.2.2.1, hprops.2.2.2, ?_⟩
  · have hwb : windowButtons s e currentPage
        = (List.range (m + 1)).map (fun (k : Nat) => pageButton currentPage (s + (k : Int))) := by
      have : (e - s + 1).toNat = m + 1 := by omega
      rw [windowButtons, this]
      rfl
    have hnot : ¬ pages ≤ 1 := by omega
    rw [renderPagination, if_neg hnot, hw]
    simp only [hwb]
    rw [← controls_eq_spaced pages currentPage s m, hm]
    simp
  · rw [spaced_aria, List.filter_eq,
      List.count_eq_one_of_mem (List.Sorted.nodup hprops.1) hprops.2.2.2]
    simp [pageButton]

theorem renderPagination_spec_witness :
    ((2 : Int) ≤ 20 ∧ (1 : Int) ≤ 10 ∧ (10 : Int) ≤ 20) ∧
    renderPagination 20 10
      = Control.prev false
          :: (spaced 10 [1, 7, 8, 9, 10, 11, 12, 13, 20] ++ [Control.next false]) ∧
    ∃ ps : List Int,
      renderPagination 20 10
        = Control.prev (decide ((10 : Int) = 1))
            :: (spaced 10 ps ++ [Control.next (decide ((10 : Int) = 20))]) ∧
      ps.head? = some 1 ∧ ps.getLast? = some 20 := by
  obtain ⟨ps, h, -, -, hh, hl, -, -⟩ :=
    (renderPagination_spec 20 10 (by decide) (by decide) (by decide)).1
  exact ⟨⟨by decide, by decide, by decide⟩, by decide, ps, h, hh, hl⟩

end Pokedex
